import Mathlib

/-!
Shallow embedding of the prompt-submission hook pipeline
(`hooks/user-prompt-submit.py`): security filtering, keyword-based agent
detection, project-context probing, context-memory storage, telemetry and
orchestrator HTTP clients, prompt enhancement, and the process entry point.

Conventions of the embedding:
* text is `List Char`; `chars` converts a Lean string literal;
* the Python `str.lower()` is `toLowerL`; `re.IGNORECASE` matching is
  modelled by matching lowercased patterns against the lowercased text
  (all security patterns are ASCII);
* HTTP responses, filesystem contents and store success are passed in as
  explicit oracle values; fallible operations return `Except`;
* Python functions that fall off the end return `None`: such a return
  value is embedded as `none`.
-/

def chars (s : String) : List Char := s.toList

def toLowerL (s : List Char) : List Char := s.map Char.toLower

/-- The Python substring operator `a in b` on strings. -/
def isInfixL (a b : List Char) : Bool := decide (a <:+: b)

/-- Character classes occurring in the fixed security regexes of the hook. -/
inductive CClass where
  | any
  | tru
  | ws
  | chr (c : Char)
  | set (cs : List Char)
  | nset (cs : List Char)

def CClass.test : CClass → Char → Bool
  | .any, c => c != '\n'
  | .tru, _ => true
  | .ws, c => c == ' ' || c == '\t' || c == '\n' || c == '\r' || c == '\x0b' || c == '\x0c'
  | .chr a, c => a == c
  | .set cs, c => cs.contains c
  | .nset cs, c => !cs.contains c

/-- Regular expressions, the fragment used by the security filters. -/
inductive Regex where
  | emp
  | eps
  | cls (c : CClass)
  | cat (r s : Regex)
  | alt (r s : Regex)
  | star (r : Regex)

def Regex.nullable : Regex → Bool
  | .emp => false
  | .eps => true
  | .cls _ => false
  | .cat r s => r.nullable && s.nullable
  | .alt r s => r.nullable || s.nullable
  | .star _ => true

def mkCat (r s : Regex) : Regex :=
  match r, s with
  | .emp, _ => .emp
  | _, .emp => .emp
  | .eps, s => s
  | r, .eps => r
  | r, s => .cat r s

def mkAlt (r s : Regex) : Regex :=
  match r, s with
  | .emp, s => s
  | r, .emp => r
  | r, s => .alt r s

/-- Brzozowski derivative with simplifying constructors. -/
def Regex.deriv : Regex → Char → Regex
  | .emp, _ => .emp
  | .eps, _ => .emp
  | .cls cc, c => if cc.test c then .eps else .emp
  | .cat r s, c =>
    if r.nullable then mkAlt (mkCat (r.deriv c) s) (s.deriv c) else mkCat (r.deriv c) s
  | .alt r s, c => mkAlt (r.deriv c) (s.deriv c)
  | .star r, c => mkCat (r.deriv c) (.star r)

/-- Whole-string match. -/
def rmatch (r : Regex) (s : List Char) : Bool := (s.foldl Regex.deriv r).nullable

/-- Python `re.search`: a match may start and end anywhere in the string. -/
def rsearch (r : Regex) (s : List Char) : Bool :=
  rmatch (.cat (.star (.cls .tru)) (.cat r (.star (.cls .tru)))) s

def rchar (c : Char) : Regex := .cls (.chr c)

def rlit (s : String) : Regex := s.toList.foldr (fun c r => .cat (rchar c) r) .eps

/-- Zero or more whitespace characters. -/
def rws0 : Regex := .star (.cls .ws)

/-- One or more whitespace characters. -/
def rws1 : Regex := .cat (.cls .ws) (.star (.cls .ws))

/-- Zero or more arbitrary characters (a Python dot does not match a newline). -/
def rany0 : Regex := .star (.cls .any)

/-- The quote character class: double quote or single quote. -/
def quoteC : Regex := .cls (.set ['"', '\x27'])

/-- One or more non-quote characters. -/
def nonQuote1 : Regex := .cat (.cls (.nset ['"', '\x27'])) (.star (.cls (.nset ['"', '\x27'])))

/-- The shared tail of the credential-leak patterns: optional whitespace, an
equals sign, optional whitespace, then a non-empty quoted value. -/
def assignQuoted : Regex :=
  .cat rws0 (.cat (rchar '=') (.cat rws0 (.cat quoteC (.cat nonQuote1 quoteC))))

/-- The fixed security-filter list of the hook: each entry pairs the Python
regex source text with its embedding (literals lowercased; matching is done
against the lowercased prompt to model `re.IGNORECASE`). -/
def securityFilters : List (List Char × Regex) :=
  [ (chars "rm\\s+-rf\\s+/",
      .cat (rlit "rm") (.cat rws1 (.cat (rlit "-rf") (.cat rws1 (rchar '/'))))),
    (chars "sudo\\s+rm",
      .cat (rlit "sudo") (.cat rws1 (rlit "rm"))),
    (chars "format\\s+c:",
      .cat (rlit "format") (.cat rws1 (rlit "c:"))),
    (chars "del\\s+/s\\s+/q",
      .cat (rlit "del") (.cat rws1 (.cat (rlit "/s") (.cat rws1 (rlit "/q"))))),
    (chars "DROP\\s+DATABASE",
      .cat (rlit "drop") (.cat rws1 (rlit "database"))),
    (chars "eval\\s*\\(",
      .cat (rlit "eval") (.cat rws0 (rchar '('))),
    (chars "exec\\s*\\(",
      .cat (rlit "exec") (.cat rws0 (rchar '('))),
    (chars "system\\s*\\(",
      .cat (rlit "system") (.cat rws0 (rchar '('))),
    (chars "shell_exec", rlit "shell_exec"),
    (chars "passthru", rlit "passthru"),
    (chars "curl.*\\|\\s*sh",
      .cat (rlit "curl") (.cat rany0 (.cat (rchar '|') (.cat rws0 (rlit "sh"))))),
    (chars "wget.*\\|\\s*sh",
      .cat (rlit "wget") (.cat rany0 (.cat (rchar '|') (.cat rws0 (rlit "sh"))))),
    (chars "\\.\\.\\/.*\\.\\.\\/",
      .cat (rlit "../") (.cat rany0 (rlit "../"))),
    (chars "password\\s*=\\s*[\\\"\x27][^\\\"\x27]+[\\\"\x27]",
      .cat (rlit "password") assignQuoted),
    (chars "secret\\s*=\\s*[\\\"\x27][^\\\"\x27]+[\\\"\x27]",
      .cat (rlit "secret") assignQuoted),
    (chars "api[_-]?key\\s*=\\s*[\\\"\x27][^\\\"\x27]+[\\\"\x27]",
      .cat (rlit "api") (.cat (.alt (.cls (.set ['_', '-'])) .eps)
        (.cat (rlit "key") assignQuoted))) ]

/-- Embeds detect_security_issues: one issue string per matching pattern. -/
def detect_security_issues (prompt : List Char) : List (List Char) :=
  securityFilters.filterMap fun p =>
    if rsearch p.2 (toLowerL prompt) then some (chars "Potential security risk: " ++ p.1)
    else none

/-- category name → agent name → keyword list (a Python dict of dicts,
embedded as association lists; the dict invariant is duplicate-free keys). -/
abbrev Taxonomy := List (String × List (String × List (List Char)))

/-- Literal transcription of the built-in default `keyword_patterns`. -/
def defaultPatterns : Taxonomy :=
  [ ("engineering",
     [ ("ai-engineer",
        [chars "ai", chars "machine learning", chars "neural", chars "model", chars "ml",
         chars "artificial intelligence"]),
       ("rapid-prototyper",
        [chars "prototype", chars "mvp", chars "quick", chars "fast", chars "demo",
         chars "rapid"]),
       ("test-writer-fixer",
        [chars "test", chars "testing", chars "unit", chars "integration", chars "bug",
         chars "coverage"]),
       ("performance-optimizer",
        [chars "performance", chars "speed", chars "optimize", chars "slow", chars "latency",
         chars "bundle"]),
       ("security-auditor",
        [chars "security", chars "vulnerability", chars "audit", chars "safe", chars "breach",
         chars "exploit"]),
       ("code-reviewer",
        [chars "review", chars "quality", chars "standards", chars "refactor",
         chars "best practices"]),
       ("devops-automator",
        [chars "deploy", chars "pipeline", chars "ci/cd", chars "automation", chars "docker",
         chars "kubernetes"]) ]),
    ("product",
     [ ("feedback-synthesizer",
        [chars "feedback", chars "complaints", chars "users", chars "issues", chars "problems",
         chars "satisfaction"]),
       ("trend-researcher",
        [chars "trends", chars "viral", chars "popular", chars "market", chars "research",
         chars "analysis"]),
       ("feature-prioritizer",
        [chars "priority", chars "backlog", chars "features", chars "roadmap", chars "planning",
         chars "sprint"]),
       ("user-story-writer",
        [chars "story", chars "requirements", chars "specs", chars "documentation",
         chars "user needs"]),
       ("metrics-analyzer",
        [chars "metrics", chars "analytics", chars "kpi", chars "data", chars "performance",
         chars "tracking"]) ]),
    ("marketing",
     [ ("growth-hacker",
        [chars "growth", chars "viral", chars "marketing", chars "acquisition",
         chars "conversion", chars "funnel"]),
       ("tiktok-strategist",
        [chars "tiktok", chars "social", chars "content", chars "viral", chars "engagement",
         chars "influencer"]),
       ("seo-optimizer",
        [chars "seo", chars "search", chars "google", chars "ranking", chars "optimization",
         chars "keywords"]),
       ("brand-voice-keeper",
        [chars "brand", chars "voice", chars "messaging", chars "tone", chars "communication",
         chars "style"]),
       ("campaign-orchestrator",
        [chars "campaign", chars "marketing", chars "channels", chars "coordination",
         chars "advertising"]) ]),
    ("design",
     [ ("ui-designer",
        [chars "ui", chars "interface", chars "design", chars "layout", chars "components",
         chars "wireframe"]),
       ("whimsy-injector",
        [chars "whimsy", chars "delight", chars "fun", chars "engaging", chars "interactive",
         chars "creative"]),
       ("accessibility-guardian",
        [chars "accessibility", chars "a11y", chars "wcag", chars "inclusive",
         chars "disability", chars "screen reader"]),
       ("brand-consistency-enforcer",
        [chars "brand", chars "consistency", chars "design system", chars "guidelines",
         chars "standards"]),
       ("user-experience-optimizer",
        [chars "ux", chars "user experience", chars "flow", chars "usability", chars "journey",
         chars "persona"]) ]),
    ("project-management",
     [ ("sprint-master",
        [chars "sprint", chars "agile", chars "scrum", chars "ceremonies", chars "planning",
         chars "retrospective"]),
       ("risk-assessor",
        [chars "risk", chars "blocker", chars "dependencies", chars "timeline", chars "issues",
         chars "mitigation"]),
       ("stakeholder-communicator",
        [chars "stakeholder", chars "communication", chars "status", chars "reporting",
         chars "updates"]),
       ("resource-allocator",
        [chars "resources", chars "capacity", chars "allocation", chars "team",
         chars "workload", chars "bandwidth"]),
       ("deadline-enforcer",
        [chars "deadline", chars "timeline", chars "schedule", chars "delivery",
         chars "milestones", chars "due date"]) ]),
    ("operations",
     [ ("workflow-optimizer",
        [chars "workflow", chars "process", chars "efficiency", chars "optimization",
         chars "bottleneck", chars "streamline"]),
       ("documentation-maintainer",
        [chars "documentation", chars "docs", chars "knowledge", chars "wiki", chars "guide",
         chars "manual"]),
       ("quality-assurance-coordinator",
        [chars "qa", chars "quality", chars "testing", chars "validation", chars "standards",
         chars "compliance"]),
       ("environment-manager",
        [chars "environment", chars "deployment", chars "staging", chars "production",
         chars "infrastructure"]),
       ("incident-responder",
        [chars "incident", chars "emergency", chars "outage", chars "critical", chars "urgent",
         chars "downtime"]) ]),
    ("testing",
     [ ("automated-tester",
        [chars "automated", chars "testing", chars "suite", chars "coverage",
         chars "continuous", chars "regression"]),
       ("manual-tester",
        [chars "manual", chars "exploratory", chars "testing", chars "validation",
         chars "verification", chars "user testing"]),
       ("load-tester",
        [chars "load", chars "performance", chars "stress", chars "scalability",
         chars "capacity", chars "benchmark"]),
       ("security-tester",
        [chars "security", chars "penetration", chars "vulnerability", chars "exploit",
         chars "attack", chars "pen test"]),
       ("compatibility-tester",
        [chars "compatibility", chars "cross-platform", chars "browser", chars "device",
         chars "mobile", chars "responsive"]) ]) ]

/-- Embeds load_keyword_patterns. The configuration-file oracle: `none` means the
file does not exist; `some r` means it exists and `r` is the outcome of
`json.load` (`.error` = a parse exception, which the Python code does not
catch, so it propagates). -/
def load_keyword_patterns (file : Option (Except Unit Taxonomy)) : Except Unit Taxonomy :=
  match file with
  | none => .ok defaultPatterns
  | some r => r

/-- The agent registry is an opaque JSON object; its default is `{}`. -/
abbrev Registry := List (String × String)

/-- Embeds load_agent_registry: same shape as the pattern loader, default empty. -/
def load_agent_registry (file : Option (Except Unit Registry)) : Except Unit Registry :=
  match file with
  | none => .ok []
  | some r => r

/-- Result shape of `detect_agents`: category → agent → matched keywords. -/
abbrev Detected := List (String × List (String × List (List Char)))

/-- Dict key lookup on an association list. -/
def getD {α : Type} (l : List (String × α)) (k : String) : Option α :=
  (l.find? fun p => p.1 == k).map fun p => p.2

/-- The matched keywords of one agent: `[kw for kw in keywords if kw.lower() in prompt_lower]`. -/
def keywordMatches (pl : List Char) (kws : List (List Char)) : List (List Char) :=
  kws.filter fun kw => isInfixL (toLowerL kw) pl

/-- The inner loop of `detect_agents`: agents that have at least one match. -/
def agentMatches (pl : List Char) (agents : List (String × List (List Char))) :
    List (String × List (List Char)) :=
  agents.filterMap fun a =>
    let m := keywordMatches pl a.2
    if m.isEmpty then none else some (a.1, m)

/-- Embeds detect_agents: categories that have at least one matching agent. -/
def detect_agents (patterns : Taxonomy) (prompt : List Char) : Detected :=
  let pl := toLowerL prompt
  patterns.filterMap fun p =>
    let ags := agentMatches pl p.2
    if ags.isEmpty then none else some (p.1, ags)

/-- Reads the matches at one category and agent of a detection result,
reading the empty list where the Python dict has no entry. -/
def matchesOf (d : Detected) (cat ag : String) : List (List Char) :=
  (((getD d cat).bind fun ags => getD ags ag).getD [])

/-- The filesystem oracle for `get_project_context`. `claudeMd` is `none`
when `CLAUDE.md` does not exist, `some (.error ())` when it exists but
reading/decoding it raises, and `some (.ok content)` when it reads. -/
structure FileSystem where
  cwd : List Char
  hasPackageJson : Bool
  hasLocalClaude : Bool
  gitRepo : Bool
  claudeMd : Option (Except Unit (List Char))

/-- The last path component (the Python Path name attribute). -/
def basename (p : List Char) : List Char :=
  ((p.splitOn '/').filter fun c => !c.isEmpty).getLastD []

structure ProjectContext where
  working_directory : List Char
  project_name : List Char
  has_package_json : Bool
  has_claude_md : Bool
  has_local_claude : Bool
  git_repository : Bool
  claude_md_content : Option (List Char)

/-- Embeds get_project_context: marker probes plus the first 1000 characters of
`CLAUDE.md`; a read failure is swallowed and the field stays absent. -/
def get_project_context (fs : FileSystem) : ProjectContext :=
  { working_directory := fs.cwd
    project_name := basename fs.cwd
    has_package_json := fs.hasPackageJson
    has_claude_md := fs.claudeMd.isSome
    has_local_claude := fs.hasLocalClaude
    git_repository := fs.gitRepo
    claude_md_content :=
      match fs.claudeMd with
      | some (.ok content) => some (content.take 1000)
      | some (.error _) => none
      | none => none }

/-- The word-character test after lowercasing (ASCII fragment). -/
def isWordChar (c : Char) : Bool := c.isAlphanum || c == '_'

/-- Splits a string into its maximal runs of word characters
(`re.findall` against word-run boundaries); `acc` holds the reversed
current run. -/
def wordRunsAux : List Char → List Char → List (List Char)
  | [], acc => if acc.isEmpty then [] else [acc.reverse]
  | c :: rest, acc =>
    if isWordChar c then wordRunsAux rest (c :: acc)
    else if acc.isEmpty then wordRunsAux rest [] else acc.reverse :: wordRunsAux rest []

/-- Embeds the findall of word-bounded runs: the maximal word runs of
length at least 3. -/
def findWords (s : List Char) : List (List Char) :=
  (wordRunsAux s []).filter fun r => 3 ≤ r.length

/-- The fixed stopword set of `extract_keywords`. -/
def stopwordsL : List (List Char) :=
  [chars "the", chars "and", chars "for", chars "are", chars "but", chars "not", chars "you",
   chars "all", chars "can", chars "had", chars "her", chars "was", chars "one", chars "our",
   chars "out", chars "day", chars "get", chars "has", chars "him", chars "his", chars "how",
   chars "man", chars "new", chars "now", chars "old", chars "see", chars "two", chars "way",
   chars "who", chars "boy", chars "did", chars "its", chars "let", chars "put", chars "say",
   chars "she", chars "too", chars "use"]

/-- Embeds extract_keywords: word runs of the lowercased prompt, stopwords
dropped, duplicates removed (`list(set(...))` is embedded as `dedup`;
the iteration order of a Python set is arbitrary, the collection is the
same). -/
def extract_keywords (prompt : List Char) : List (List Char) :=
  ((findWords (toLowerL prompt)).filter fun w => decide (w ∉ stopwordsL)).dedup

/-- One row of the `context_memory` table (serialization left structured). -/
structure Record where
  session_id : String
  timestamp : String
  user_prompt : List Char
  detected_agents : Detected
  context_keywords : List (List Char)
  project_context : ProjectContext

/-- Embeds log_event: posts the event; returns the Python return value (always
`None`) paired with the warning written to stderr, if any. The HTTP oracle
is `.error ()` for a raised exception and `.ok code` for a response. -/
def log_event (outcome : Except Unit Nat) : Option Bool × Option String :=
  match outcome with
  | .error _ => (none, some "Warning: Could not log to observability system")
  | .ok code =>
    if code != 200 then (none, some "Warning: Observability logging failed")
    else (none, none)

/-- Embeds route_to_orchestrator: the oracle provides the request outcome; on a
response the json parse of the body is itself fallible (a parse exception is
caught by the surrounding handler and falls through to `None`). The parsed
body is opaque and embedded as a string. -/
def route_to_orchestrator (outcome : Except Unit (Nat × Except Unit String)) : Option String :=
  match outcome with
  | .error _ => none
  | .ok (code, body) =>
    if code == 200 then
      match body with
      | .ok parsed => some parsed
      | .error _ => none
    else none

/-- The agent count: the sum over categories of the number of detected agents. -/
def agentCount (d : Detected) : Nat := (d.map fun p => p.2.length).sum

def natChars (n : Nat) : List Char := (toString n).toList

/-- Embeds enhance_prompt: appends one trailing system-context line when any of
the three signals holds, otherwise returns the prompt unchanged. -/
def enhance_prompt (original : List Char) (detected_agents : Detected)
    (project_context : ProjectContext) : List Char :=
  let enhancements :=
    (if project_context.has_claude_md then [chars "📋 Local CLAUDE.md context available"]
     else []) ++
    (if project_context.git_repository then [chars "🔄 Git repository detected"] else []) ++
    (if !detected_agents.isEmpty then
      [chars "🤖 " ++ natChars (agentCount detected_agents) ++
        chars " specialized agents detected and available"]
     else [])
  if !enhancements.isEmpty then
    original ++ chars "\n\n<!-- System Context: " ++
      List.intercalate (chars " | ") enhancements ++ chars " -->"
  else original

/-- The two result-dict shapes `process_prompt` can return. -/
inductive PResult where
  | block (reason : String) (issues : List (List Char)) (session_id : String)
  | cont (session_id : String) (detected_agents : Detected)
      (project_context : ProjectContext) (orchestration_result : Option String)
      (enhanced_prompt : List Char)

def PResult.action : PResult → String
  | .block .. => "block"
  | .cont .. => "continue"

/-- The per-invocation environment: loaded configuration and the oracles for
every side effect one invocation performs. -/
structure Env where
  sessionId : String
  patterns : Taxonomy
  fs : FileSystem
  storeOk : Bool
  telemetryOutcome : Except Unit Nat
  routingOutcome : Except Unit (Nat × Except Unit String)
  timestamp : String

/-- Embeds store_context: inserts one row, or swallows the failure with a
warning; returns the new table contents and whether the insert happened. -/
def store_context (env : Env) (store : List Record) (prompt : List Char)
    (detected : Detected) (ctx : ProjectContext) : List Record × Bool :=
  if env.storeOk then
    (store ++ [{ session_id := env.sessionId, timestamp := env.timestamp,
                 user_prompt := prompt, detected_agents := detected,
                 context_keywords := extract_keywords prompt, project_context := ctx }],
     true)
  else (store, false)

/-- Everything observable about one `process_prompt` call: its result, the
store contents afterwards, and whether the two HTTP requests were sent. -/
structure ProcOut where
  result : PResult
  store : List Record
  telemetrySent : Bool
  routeSent : Bool

/-- Embeds process_prompt: the pipeline. A non-empty security-issue list
short-circuits to a block; otherwise detect → probe → store → notify →
route → enhance. -/
def process_prompt (env : Env) (store : List Record) (prompt : List Char) : ProcOut :=
  let issues := detect_security_issues prompt
  if issues.isEmpty then
    let detected := detect_agents env.patterns prompt
    let ctx := get_project_context env.fs
    let store2 := (store_context env store prompt detected ctx).1
    let _tele := log_event env.telemetryOutcome
    let orch := route_to_orchestrator env.routingOutcome
    { result := .cont env.sessionId detected ctx orch (enhance_prompt prompt detected ctx)
      store := store2
      telemetrySent := true
      routeSent := true }
  else
    { result := .block "Security violation detected" issues env.sessionId
      store := store
      telemetrySent := false
      routeSent := false }

/-- Joins the argument-vector tail with single spaces. -/
def joinSpace (parts : List (List Char)) : List Char :=
  List.intercalate (chars " ") parts

/-- Oracles for the construction of `UserPromptSubmitHook`: the outcomes
of the two configuration-file loads and of the sqlite database
initialization (`init_context_db`: connect, table and index creation). An
error in any of them is an exception the constructor does not catch. -/
structure HookInit where
  patternsFile : Option (Except Unit Taxonomy)
  registryFile : Option (Except Unit Registry)
  dbInit : Except Unit Unit

/-- Embeds the `UserPromptSubmitHook` constructor: loads the keyword
patterns, the (fixed) security filters and the agent registry, then
initializes the context database. Nothing is caught, so any raised
exception propagates; on success the loaded taxonomy is returned. -/
def hookConstruct (init : HookInit) : Except Unit Taxonomy := do
  let patterns ← load_keyword_patterns init.patternsFile
  let _registry ← load_agent_registry init.registryFile
  let _db ← init.dbInit
  pure patterns

/-- The process entry point of the hook (renamed: Lean reserves the name
main for executables): a missing prompt argument exits 1 (usage error);
an exception escaping the `UserPromptSubmitHook()` construction
(configuration parse error, database failure) terminates the interpreter
with status 1; a security block exits 1; every other path exits 0.
Returns the process exit status; the pipeline runs with the
constructor-loaded taxonomy. -/
def hookMain (argv : List (List Char)) (init : HookInit) (env : Env)
    (store : List Record) : Nat :=
  if argv.length < 2 then 1
  else
    let prompt := joinSpace (argv.drop 1)
    match hookConstruct init with
    | .error _ => 1
    | .ok patterns =>
      match (process_prompt { env with patterns := patterns } store prompt).result with
      | .block .. => 1
      | .cont .. => 0

/-! Concrete fixtures used by witnesses. -/

def fsW : FileSystem :=
  { cwd := chars "/tmp/project", hasPackageJson := false, hasLocalClaude := false,
    gitRepo := false, claudeMd := none }

def envW : Env :=
  { sessionId := "abc12345", patterns := defaultPatterns, fs := fsW, storeOk := true,
    telemetryOutcome := .ok 200, routingOutcome := .error (), timestamp := "t0" }

/-- Constructor oracles for a clean run: both configuration files absent
(defaults used), database initialization succeeds. -/
def initW : HookInit :=
  { patternsFile := none, registryFile := none, dbInit := .ok () }

/-- Constructor oracles where the keyword-patterns file exists but its
JSON does not parse. -/
def initBad : HookInit :=
  { patternsFile := some (.error ()), registryFile := none, dbInit := .ok () }

def fsW2000 : FileSystem :=
  { cwd := chars "/tmp/project", hasPackageJson := false, hasLocalClaude := false,
    gitRepo := false, claudeMd := some (.ok (List.replicate 2000 'a')) }

/-- A one-category, one-agent, one-keyword taxonomy fixture. -/
def TW : Taxonomy := [("engineering", [("performance-optimizer", [chars "performance"])])]

def pW : List Char := chars "please optimize the slow API performance"

def ctxW : ProjectContext :=
  { working_directory := chars "/tmp/project", project_name := chars "project",
    has_package_json := false, has_claude_md := false, has_local_claude := false,
    git_repository := true, claude_md_content := none }

def dW : Detected := [("engineering", [("performance-optimizer", [chars "performance"])])]

/-- The `enhancements` list built inside `enhance_prompt`, named so the
theorems can speak about it. -/
def enhList (detected_agents : Detected) (project_context : ProjectContext) :
    List (List Char) :=
  (if project_context.has_claude_md then [chars "📋 Local CLAUDE.md context available"]
   else []) ++
  (if project_context.git_repository then [chars "🔄 Git repository detected"] else []) ++
  (if !detected_agents.isEmpty then
    [chars "🤖 " ++ natChars (agentCount detected_agents) ++
      chars " specialized agents detected and available"]
   else [])

/-! Theorems. -/

theorem enhance_prompt_eq (o : List Char) (d : Detected) (ctx : ProjectContext) :
    enhance_prompt o d ctx =
      if !(enhList d ctx).isEmpty then
        o ++ chars "\n\n<!-- System Context: " ++
          List.intercalate (chars " | ") (enhList d ctx) ++ chars " -->"
      else o := rfl

theorem enhList_empty_iff (d : Detected) (ctx : ProjectContext) :
    enhList d ctx = [] ↔
      ctx.has_claude_md = false ∧ ctx.git_repository = false ∧ d = [] := by
  cases hcm : ctx.has_claude_md <;> cases hgit : ctx.git_repository <;> cases hd : d <;>
    simp [enhList, hcm, hgit, hd]

theorem mem_intersperse_of_mem {α : Type} (sep a : α) :
    ∀ (l : List α), a ∈ l → a ∈ l.intersperse sep := by
  intro l
  induction l with
  | nil => intro h; cases h
  | cons x tl ih =>
    intro h
    cases tl with
    | nil => simpa using h
    | cons y tl' =>
      rcases List.mem_cons.mp h with rfl | h'
      · simp [List.intersperse]
      · simp only [List.intersperse]
        exact List.mem_cons_of_mem _ (List.mem_cons_of_mem _ (ih h'))

theorem infix_intercalate_of_mem (sep x : List Char) (L : List (List Char)) (h : x ∈ L) :
    x <:+: List.intercalate sep L := by
  have : List.intercalate sep L = (L.intersperse sep).flatten := rfl
  rw [this]
  exact List.infix_of_mem_flatten (mem_intersperse_of_mem sep x L h)

theorem getD_eq_some_of_mem {α : Type} (l : List (String × α)) (k : String) (v : α)
    (hnd : (l.map Prod.fst).Nodup) (hm : (k, v) ∈ l) : getD l k = some v := by
  induction l with
  | nil => cases hm
  | cons hd tl ih =>
    obtain ⟨k', v'⟩ := hd
    simp only [List.map_cons, List.nodup_cons] at hnd
    rcases List.mem_cons.mp hm with heq | htl
    · injection heq with h1 h2
      subst h1; subst h2
      simp [getD]
    · have hne : (k' == k) = false := by
        simp only [beq_eq_false_iff_ne, ne_eq]
        intro he
        subst he
        exact hnd.1 (List.mem_map_of_mem Prod.fst htl)
      simpa [getD, hne] using ih hnd.2 htl

theorem getD_eq_none {α : Type} (l : List (String × α)) (k : String)
    (hk : k ∉ l.map Prod.fst) : getD l k = none := by
  induction l with
  | nil => rfl
  | cons hd tl ih =>
    simp only [List.map_cons, List.mem_cons, not_or] at hk
    have hne : (hd.1 == k) = false := by
      simp only [beq_eq_false_iff_ne, ne_eq]
      exact fun he => hk.1 he.symm
    simpa [getD, hne] using ih hk.2

theorem enhance_keeps_prefix (o : List Char) (d : Detected) (ctx : ProjectContext) :
    o <+: enhance_prompt o d ctx := by
  have key : ∀ (E : List (List Char)),
      o <+: (if !E.isEmpty then
        o ++ chars "\n\n<!-- System Context: " ++ List.intercalate (chars " | ") E ++
          chars " -->"
      else o) := by
    intro E
    split
    · simpa only [List.append_assoc] using List.prefix_append o _
    · exact List.prefix_rfl
  exact key _

/-- C1: a prompt on which the security filter fires is blocked: the pipeline
result is the block action carrying the full issue list and the session id,
the context store is unchanged, no telemetry event is posted, no routing
request is sent, and no enhanced prompt is built (the block result carries
none). -/
theorem blocked_prompt_short_circuits (env : Env) (store : List Record) (prompt : List Char)
    (h : detect_security_issues prompt ≠ []) :
    (process_prompt env store prompt).result =
        .block "Security violation detected" (detect_security_issues prompt) env.sessionId ∧
      (process_prompt env store prompt).result.action = "block" ∧
      (process_prompt env store prompt).store = store ∧
      (process_prompt env store prompt).telemetrySent = false ∧
      (process_prompt env store prompt).routeSent = false := by
  have hne : (detect_security_issues prompt).isEmpty = false := by
    simpa [List.isEmpty_iff] using h
  simp [process_prompt, hne, PResult.action]

theorem blocked_prompt_short_circuits_witness :
    detect_security_issues (chars "rm -rf /") ≠ [] ∧
      (process_prompt envW [] (chars "rm -rf /")).result.action = "block" ∧
      (process_prompt envW [] (chars "rm -rf /")).store = [] ∧
      (process_prompt envW [] (chars "rm -rf /")).telemetrySent = false ∧
      (process_prompt envW [] (chars "rm -rf /")).routeSent = false := by
  have h : detect_security_issues (chars "rm -rf /") ≠ [] := by decide
  obtain ⟨-, h2, h3, h4, h5⟩ := blocked_prompt_short_circuits envW [] (chars "rm -rf /") h
  exact ⟨h, h2, h3, h4, h5⟩

/-- C2 counterexample: two paths exit non-zero without any security block.
Invoked without a prompt argument the hook exits 1 as a usage error; and
invoked with the clean prompt "hello" while the keyword-patterns file
holds unparseable JSON, the constructor exception escapes `main` and the
interpreter exits 1 — in both cases the security filter blocked nothing. -/
theorem exit_nonzero_without_block :
    hookMain [chars "user-prompt-submit.py"] initW envW [] = 1 ∧
      detect_security_issues (joinSpace ([chars "user-prompt-submit.py"].drop 1)) = [] ∧
      hookMain [chars "user-prompt-submit.py", chars "hello"] initBad envW [] = 1 ∧
      detect_security_issues
        (joinSpace ([chars "user-prompt-submit.py", chars "hello"].drop 1)) = [] := by
  refine ⟨rfl, by decide, rfl, by decide⟩

/-- C2 amended: the exit status is non-zero iff the invocation lacked a
prompt argument (usage error), or the hook constructor raised an uncaught
exception (unparseable configuration JSON, database-initialization
failure), or the security filter blocked the joined prompt; with a prompt
argument and a successful construction every other path — store,
telemetry and routing failures, ranged over by the `env` oracles — exits
zero. -/
theorem exit_status_iff_blocked (argv : List (List Char)) (init : HookInit) (env : Env)
    (store : List Record) :
    hookMain argv init env store ≠ 0 ↔
      (argv.length < 2 ∨ hookConstruct init = .error () ∨
        detect_security_issues (joinSpace (argv.drop 1)) ≠ []) := by
  unfold hookMain
  by_cases ha : argv.length < 2
  · rw [if_pos ha]
    simp [ha]
  · rw [if_neg ha]
    rcases hc : hookConstruct init with e | patterns
    · cases e
      simp [ha, hc]
    · set p := joinSpace (argv.drop 1) with hp
      by_cases hd : detect_security_issues p = []
      · have hne : (detect_security_issues p).isEmpty = true := by simp [hd]
        simp [process_prompt, hne, hd, ha, hc]
      · have hne : (detect_security_issues p).isEmpty = false := by
          simpa [List.isEmpty_iff] using hd
        simp [process_prompt, hne, hd, ha, hc]

/-- C4 counterexample: when the keyword-taxonomy file (or the
agent-registry file) exists but its JSON does not parse, the `json.load`
exception propagates out of loading; there is no fallback to the built-in
defaults. -/
theorem load_config_parse_error_propagates :
    load_keyword_patterns (some (.error ())) = .error () ∧
      load_keyword_patterns (some (.error ())) ≠ .ok defaultPatterns ∧
      load_agent_registry (some (.error ())) = .error () ∧
      load_agent_registry (some (.error ())) ≠ .ok [] := by
  refine ⟨rfl, ?_, rfl, ?_⟩ <;> simp [load_keyword_patterns, load_agent_registry]

/-- C4 amended: an absent configuration file falls back to the built-in
defaults; a file that parses is used as-is; but a parse failure propagates
as the raised exception. -/
theorem load_config_fallback :
    load_keyword_patterns none = .ok defaultPatterns ∧
      load_agent_registry none = .ok [] ∧
      (∀ t, load_keyword_patterns (some (.ok t)) = .ok t) ∧
      (∀ e, load_keyword_patterns (some (.error e)) = .error e) ∧
      (∀ r, load_agent_registry (some (.ok r)) = .ok r) :=
  ⟨rfl, rfl, fun _ => rfl, fun _ => rfl, fun _ => rfl⟩

/-- C5 counterexample: `log_event` returns `None` on every path — at a 200
response its return value is not the boolean `true`, and at a raised
exception it is not the boolean `false`. -/
theorem log_event_returns_no_boolean :
    (log_event (.ok 200)).1 ≠ some true ∧ (log_event (.error ())).1 ≠ some false := by
  constructor <;> simp [log_event]

/-- C5 amended: `log_event` returns `None` on every path and never raises
(it is total over every oracle outcome, exceptions included); the outcome
is reported only on the warning channel, which stays silent iff the POST
returned HTTP 200. -/
theorem log_event_spec (outcome : Except Unit Nat) :
    (log_event outcome).1 = none ∧ ((log_event outcome).2 = none ↔ outcome = .ok 200) := by
  rcases outcome with e | code
  · cases e
    simp [log_event]
  · by_cases h : code = 200 <;> simp [log_event, h]

/-- C6: routing returns the parsed response body exactly when the POST
returned HTTP 200 with a parseable body, and `None` in every other case
(non-200 status, request exception, or body-parse exception); a routing
failure still leaves the pipeline on the continue action with a `None`
orchestration result. -/
theorem route_to_orchestrator_spec :
    (∀ outcome parsed, route_to_orchestrator outcome = some parsed ↔
        outcome = .ok (200, .ok parsed)) ∧
      (∀ env store prompt, detect_security_issues prompt = [] →
        route_to_orchestrator env.routingOutcome = none →
        ∃ d ctx ep, (process_prompt env store prompt).result =
            .cont env.sessionId d ctx none ep ∧
          (process_prompt env store prompt).result.action = "continue") := by
  constructor
  · intro outcome parsed
    rcases outcome with e | ⟨code, body⟩
    · simp [route_to_orchestrator]
    · rcases body with e | b
      · by_cases h : code = 200 <;> simp [route_to_orchestrator, h]
      · by_cases h : code = 200 <;> simp [route_to_orchestrator, h]
  · intro env store prompt hsec hroute
    have hne : (detect_security_issues prompt).isEmpty = true := by simp [hsec]
    refine ⟨detect_agents env.patterns prompt, get_project_context env.fs,
      enhance_prompt prompt (detect_agents env.patterns prompt) (get_project_context env.fs),
      ?_, ?_⟩ <;>
      simp [process_prompt, hne, hroute, PResult.action]

theorem route_to_orchestrator_spec_witness :
    route_to_orchestrator envW.routingOutcome = none ∧
      detect_security_issues (chars "hello") = [] ∧
      ∃ d ctx ep, (process_prompt envW [] (chars "hello")).result =
          .cont envW.sessionId d ctx none ep ∧
        (process_prompt envW [] (chars "hello")).result.action = "continue" :=
  ⟨rfl, by decide, route_to_orchestrator_spec.2 envW [] (chars "hello") (by decide) rfl⟩

/-- C7: a readable 2000-character CLAUDE.md yields an excerpt equal to its
first 1000 characters (length exactly 1000); an absent instructions file,
or one whose read raises, leaves the excerpt field omitted and propagates
no error (`get_project_context` is total). -/
theorem get_project_context_excerpt_spec :
    (∀ fs content, fs.claudeMd = some (.ok content) → content.length = 2000 →
      (get_project_context fs).claude_md_content = some (content.take 1000) ∧
        (content.take 1000).length = 1000) ∧
      (∀ fs, fs.claudeMd = none → (get_project_context fs).claude_md_content = none) ∧
      (∀ fs e, fs.claudeMd = some (.error e) →
        (get_project_context fs).claude_md_content = none) := by
  refine ⟨?_, ?_, ?_⟩
  · intro fs content hfs hlen
    constructor
    · simp only [get_project_context]
      rw [hfs]
    · simp [List.length_take, hlen]
  · intro fs hfs
    simp only [get_project_context]
    rw [hfs]
  · intro fs e hfs
    simp only [get_project_context]
    rw [hfs]

set_option maxRecDepth 8192 in
theorem get_project_context_excerpt_witness :
    fsW2000.claudeMd = some (.ok (List.replicate 2000 'a')) ∧
      (List.replicate 2000 'a').length = 2000 ∧
      (get_project_context fsW2000).claude_md_content =
        some ((List.replicate 2000 'a').take 1000) ∧
      ((List.replicate 2000 'a').take 1000).length = 1000 := by
  have h := get_project_context_excerpt_spec.1 fsW2000 (List.replicate 2000 'a') rfl (by simp)
  exact ⟨rfl, by simp, h.1, h.2⟩

/-- C10: on every non-blocked prompt the enhanced prompt of the pipeline has the
original prompt as a character-for-character prefix. -/
theorem enhanced_prompt_keeps_original (env : Env) (store : List Record) (prompt : List Char)
    (h : detect_security_issues prompt = []) :
    ∃ d ctx orch ep, (process_prompt env store prompt).result =
        .cont env.sessionId d ctx orch ep ∧ prompt <+: ep := by
  have hne : (detect_security_issues prompt).isEmpty = true := by simp [h]
  refine ⟨detect_agents env.patterns prompt, get_project_context env.fs,
    route_to_orchestrator env.routingOutcome,
    enhance_prompt prompt (detect_agents env.patterns prompt) (get_project_context env.fs),
    ?_, enhance_keeps_prefix _ _ _⟩
  simp [process_prompt, hne]

theorem enhanced_prompt_keeps_original_witness :
    detect_security_issues (chars "hello") = [] ∧
      ∃ d ctx orch ep, (process_prompt envW [] (chars "hello")).result =
        .cont envW.sessionId d ctx orch ep ∧ (chars "hello") <+: ep :=
  ⟨by decide, enhanced_prompt_keeps_original envW [] (chars "hello") (by decide)⟩

/-- C8: `enhance_prompt` appends a single trailing annotation exactly when
local instructions, a git repository, or at least one detected agent is
present (the enhanced prompt equals the original iff no signal holds), and
when agents were detected the appended tail carries the total agent count
(the sum over categories of the number of detected agents). -/
theorem enhance_prompt_spec (o : List Char) (d : Detected) (ctx : ProjectContext) :
    (enhance_prompt o d ctx = o ↔
        ctx.has_claude_md = false ∧ ctx.git_repository = false ∧ d = []) ∧
      (ctx.has_claude_md = true ∨ ctx.git_repository = true ∨ d ≠ [] →
        ∃ tail, tail ≠ [] ∧ enhance_prompt o d ctx = o ++ tail ∧
          (d ≠ [] → natChars (agentCount d) <:+: tail)) := by
  have hc1ne : chars "\n\n<!-- System Context: " ≠ ([] : List Char) := by decide
  have key : ctx.has_claude_md = true ∨ ctx.git_repository = true ∨ d ≠ [] →
      ∃ tail, tail ≠ [] ∧ enhance_prompt o d ctx = o ++ tail ∧
        (d ≠ [] → natChars (agentCount d) <:+: tail) := by
    intro hsig
    have hne : enhList d ctx ≠ [] := by
      rw [ne_eq, enhList_empty_iff]
      rintro ⟨h1, h2, h3⟩
      rcases hsig with h | h | h
      · rw [h1] at h; cases h
      · rw [h2] at h; cases h
      · exact h h3
    have hE : (enhList d ctx).isEmpty = false := by
      simpa [List.isEmpty_iff] using hne
    refine ⟨chars "\n\n<!-- System Context: " ++
      (List.intercalate (chars " | ") (enhList d ctx) ++ chars " -->"), ?_, ?_, ?_⟩
    · intro h0
      exact hc1ne (List.append_eq_nil.mp h0).1
    · rw [enhance_prompt_eq, hE]
      simp [List.append_assoc]
    · intro hd
      have hde : d.isEmpty = false := by simpa [List.isEmpty_iff] using hd
      have hmem : (chars "🤖 " ++ natChars (agentCount d) ++
          chars " specialized agents detected and available") ∈ enhList d ctx := by
        simp [enhList, hde]
      have s1 : natChars (agentCount d) <:+:
          (chars "🤖 " ++ natChars (agentCount d) ++
            chars " specialized agents detected and available") :=
        ⟨chars "🤖 ", chars " specialized agents detected and available", rfl⟩
      have s2 := infix_intercalate_of_mem (chars " | ") _ _ hmem
      have s3 : List.intercalate (chars " | ") (enhList d ctx) <:+:
          (chars "\n\n<!-- System Context: " ++
            (List.intercalate (chars " | ") (enhList d ctx) ++ chars " -->")) :=
        ⟨chars "\n\n<!-- System Context: ", chars " -->", by simp [List.append_assoc]⟩
      exact (s1.trans s2).trans s3
  refine ⟨⟨?_, ?_⟩, key⟩
  · intro h
    by_contra hand
    have hsig : ctx.has_claude_md = true ∨ ctx.git_repository = true ∨ d ≠ [] := by
      by_cases h1 : ctx.has_claude_md = true
      · exact Or.inl h1
      by_cases h2 : ctx.git_repository = true
      · exact Or.inr (Or.inl h2)
      by_cases h3 : d = []
      · exact absurd ⟨by simpa using h1, by simpa using h2, h3⟩ hand
      · exact Or.inr (Or.inr h3)
    obtain ⟨tail, htne, heq, -⟩ := key hsig
    rw [heq] at h
    exact htne (by simpa using h)
  · rintro ⟨h1, h2, h3⟩
    have : enhList d ctx = [] := (enhList_empty_iff d ctx).mpr ⟨h1, h2, h3⟩
    rw [enhance_prompt_eq, this]
    simp

theorem enhance_prompt_spec_witness :
    (ctxW.git_repository = true ∨ dW ≠ []) ∧
      ∃ tail, tail ≠ [] ∧ enhance_prompt (chars "hi") dW ctxW = chars "hi" ++ tail ∧
        (dW ≠ [] → natChars (agentCount dW) <:+: tail) :=
  ⟨Or.inl rfl,
    (enhance_prompt_spec (chars "hi") dW ctxW).2 (Or.inr (Or.inl rfl))⟩

/-- C9: every extracted keyword collection is duplicate-free; each element
is a word-like run of the lowercased prompt of length at least 3 that is
not a stopword; and extraction is deterministic in its input. -/
theorem extract_keywords_spec (p : List Char) :
    (extract_keywords p).Nodup ∧
      (∀ w, w ∈ extract_keywords p → w ∈ findWords (toLowerL p) ∧ 3 ≤ w.length ∧
        w ∉ stopwordsL) ∧
      ∀ q, p = q → extract_keywords p = extract_keywords q := by
  refine ⟨List.nodup_dedup _, ?_, fun q h => by rw [h]⟩
  intro w hw
  rw [extract_keywords, List.mem_dedup, List.mem_filter] at hw
  obtain ⟨hmem, hns⟩ := hw
  have hlen : 3 ≤ w.length := by
    have h2 : w ∈ wordRunsAux (toLowerL p) [] ∧ 3 ≤ w.length := by
      simpa [findWords] using hmem
    exact h2.2
  exact ⟨hmem, hlen, of_decide_eq_true hns⟩

theorem extract_keywords_spec_witness :
    (chars "optimize") ∈ extract_keywords (chars "Optimize the optimize performance") ∧
      3 ≤ (chars "optimize").length ∧ (chars "optimize") ∉ stopwordsL :=
  ⟨by decide,
    ((extract_keywords_spec (chars "Optimize the optimize performance")).2.1
      (chars "optimize") (by decide)).2⟩

theorem getD_cons {α : Type} (x : String × α) (l : List (String × α)) (k : String) :
    getD (x :: l) k = if x.1 == k then some x.2 else getD l k := by
  cases h : x.1 == k <;> simp [getD, List.find?, h]

theorem isInfixL_iff (a b : List Char) : isInfixL a b = true ↔ a <:+: b := by
  simp [isInfixL]

theorem detect_keys_sub (patterns : Taxonomy) (prompt : List Char) (k : String)
    (hk : k ∈ (detect_agents patterns prompt).map Prod.fst) :
    k ∈ patterns.map Prod.fst := by
  simp only [List.mem_map] at hk ⊢
  obtain ⟨⟨c, ags⟩, hmem, hfst⟩ := hk
  simp only [detect_agents, List.mem_filterMap] at hmem
  obtain ⟨⟨c', agents⟩, hmem', hf⟩ := hmem
  by_cases he : (agentMatches (toLowerL prompt) agents).isEmpty
  · simp [he] at hf
  · simp only [he, if_neg Bool.false_ne_true, Option.some.injEq, Prod.mk.injEq] at hf
    refine ⟨(c', agents), hmem', ?_⟩
    show c' = k
    rw [hf.1]
    exact hfst

theorem agentMatches_keys_sub (pl : List Char) (agents : List (String × List (List Char)))
    (k : String) (hk : k ∈ (agentMatches pl agents).map Prod.fst) :
    k ∈ agents.map Prod.fst := by
  simp only [List.mem_map] at hk ⊢
  obtain ⟨⟨a, ms⟩, hmem, hfst⟩ := hk
  simp only [agentMatches, List.mem_filterMap] at hmem
  obtain ⟨⟨a', kws⟩, hmem', hf⟩ := hmem
  by_cases he : (keywordMatches pl kws).isEmpty
  · simp [he] at hf
  · simp only [he, if_neg Bool.false_ne_true, Option.some.injEq, Prod.mk.injEq] at hf
    refine ⟨(a', kws), hmem', ?_⟩
    show a' = k
    rw [hf.1]
    exact hfst

theorem getD_agentMatches (pl : List Char) (agents : List (String × List (List Char)))
    (hnd : (agents.map Prod.fst).Nodup) (k : String) :
    getD (agentMatches pl agents) k =
      (getD agents k).bind fun kws =>
        if (keywordMatches pl kws).isEmpty then none
        else some (keywordMatches pl kws) := by
  induction agents with
  | nil => rfl
  | cons hd tl ih =>
    obtain ⟨a, kws⟩ := hd
    simp only [List.map_cons, List.nodup_cons] at hnd
    by_cases he : keywordMatches pl kws = []
    · have hstep : agentMatches pl ((a, kws) :: tl) = agentMatches pl tl := by
        simp [agentMatches, he]
      rw [hstep, getD_cons]
      by_cases hk : (a == k) = true
      · have hak : a = k := by simpa using hk
        have hnone : getD (agentMatches pl tl) k = none := by
          apply getD_eq_none
          intro hmem
          exact hnd.1 (by rw [hak]; exact agentMatches_keys_sub pl tl k hmem)
        rw [hnone, if_pos hk]
        simp [he]
      · rw [if_neg hk]
        exact ih hnd.2
    · have hstep : agentMatches pl ((a, kws) :: tl) =
          (a, keywordMatches pl kws) :: agentMatches pl tl := by
        simp [agentMatches, he]
      rw [hstep, getD_cons, getD_cons]
      by_cases hk : (a == k) = true
      · rw [if_pos hk, if_pos hk]
        simp [he]
      · rw [if_neg hk, if_neg hk]
        exact ih hnd.2

theorem getD_detect_agents (patterns : Taxonomy) (prompt : List Char)
    (hnd : (patterns.map Prod.fst).Nodup) (k : String) :
    getD (detect_agents patterns prompt) k =
      (getD patterns k).bind fun agents =>
        if (agentMatches (toLowerL prompt) agents).isEmpty then none
        else some (agentMatches (toLowerL prompt) agents) := by
  induction patterns with
  | nil => rfl
  | cons hd tl ih =>
    obtain ⟨c, agents⟩ := hd
    simp only [List.map_cons, List.nodup_cons] at hnd
    by_cases he : agentMatches (toLowerL prompt) agents = []
    · have hstep : detect_agents ((c, agents) :: tl) prompt = detect_agents tl prompt := by
        simp [detect_agents, he]
      rw [hstep, getD_cons]
      by_cases hk : (c == k) = true
      · have hck : c = k := by simpa using hk
        have hnone : getD (detect_agents tl prompt) k = none := by
          apply getD_eq_none
          intro hmem
          exact hnd.1 (by rw [hck]; exact detect_keys_sub tl prompt k hmem)
        rw [hnone, if_pos hk]
        simp [he]
      · rw [if_neg hk]
        exact ih hnd.2
    · have hstep : detect_agents ((c, agents) :: tl) prompt =
          (c, agentMatches (toLowerL prompt) agents) :: detect_agents tl prompt := by
        simp [detect_agents, he]
      rw [hstep, getD_cons, getD_cons]
      by_cases hk : (c == k) = true
      · rw [if_pos hk, if_pos hk]
        simp [he]
      · rw [if_neg hk, if_neg hk]
        exact ih hnd.2

/-- C3: keyword membership in the result of detect_agents is exactly
case-insensitive substring containment of the keyword in the prompt;
agents with no matching keyword and categories with no matching agent are
absent from the result; and a prompt containing no keyword of the taxonomy
yields the empty mapping. (The taxonomy is a Python dict of dicts, so its
keys are duplicate-free: the two `Nodup` hypotheses.) -/
theorem detect_agents_spec (patterns : Taxonomy) (prompt : List Char)
    (hnd : (patterns.map Prod.fst).Nodup)
    (hnda : ∀ c agents, (c, agents) ∈ patterns → (agents.map Prod.fst).Nodup) :
    (∀ cat agents ag kws kw, (cat, agents) ∈ patterns → (ag, kws) ∈ agents → kw ∈ kws →
        (kw ∈ matchesOf (detect_agents patterns prompt) cat ag ↔
          toLowerL kw <:+: toLowerL prompt)) ∧
      (∀ cat ags, (cat, ags) ∈ detect_agents patterns prompt →
        ags ≠ [] ∧ ∀ ag ms, (ag, ms) ∈ ags → ms ≠ []) ∧
      ((∀ cat agents ag kws kw, (cat, agents) ∈ patterns → (ag, kws) ∈ agents → kw ∈ kws →
          ¬ toLowerL kw <:+: toLowerL prompt) →
        detect_agents patterns prompt = []) := by
  refine ⟨?_, ?_, ?_⟩
  · intro cat agents ag kws kw hc ha hk
    have hpc : getD patterns cat = some agents := getD_eq_some_of_mem _ _ _ hnd hc
    have hin := hnda cat agents hc
    have hpa : getD agents ag = some kws := getD_eq_some_of_mem _ _ _ hin ha
    have hgam := getD_agentMatches (toLowerL prompt) agents hin ag
    rw [hpa] at hgam
    have hiff : keywordMatches (toLowerL prompt) kws = [] →
        ¬ toLowerL kw <:+: toLowerL prompt := by
      intro hkm hinf
      have hmm : kw ∈ keywordMatches (toLowerL prompt) kws :=
        List.mem_filter.mpr ⟨hk, (isInfixL_iff _ _).mpr hinf⟩
      rw [hkm] at hmm
      cases hmm
    rw [matchesOf, getD_detect_agents patterns prompt hnd cat, hpc]
    by_cases hemp : agentMatches (toLowerL prompt) agents = []
    · have hkm : keywordMatches (toLowerL prompt) kws = [] := by
        have hf : ∀ (a : String) (b : List (List Char)), (a, b) ∈ agents →
            keywordMatches (toLowerL prompt) b = [] := by
          simpa [agentMatches] using hemp
        exact hf ag kws ha
      simp [hemp, hiff hkm]
    · have hempF : (agentMatches (toLowerL prompt) agents).isEmpty = false := by
        simpa [List.isEmpty_iff] using hemp
      simp only [Option.some_bind, hempF, Bool.false_eq_true, if_false, hgam]
      by_cases hkm : keywordMatches (toLowerL prompt) kws = []
      · simp [hkm, hiff hkm]
      · have hkmF : (keywordMatches (toLowerL prompt) kws).isEmpty = false := by
          simpa [List.isEmpty_iff] using hkm
        simp only [hkmF, Bool.false_eq_true, if_false, Option.getD_some]
        simp [keywordMatches, List.mem_filter, hk, isInfixL]
  · intro cat ags h
    simp only [detect_agents, List.mem_filterMap] at h
    obtain ⟨⟨c', agents⟩, hmem, hf⟩ := h
    by_cases he : agentMatches (toLowerL prompt) agents = []
    · simp [he] at hf
    · simp [he] at hf
      obtain ⟨h1, h2⟩ := hf
      constructor
      · rw [← h2]
        exact he
      · intro ag ms hms
        rw [← h2] at hms
        simp only [agentMatches, List.mem_filterMap] at hms
        obtain ⟨⟨a', kws⟩, hma, hfa⟩ := hms
        by_cases hkm : keywordMatches (toLowerL prompt) kws = []
        · simp [hkm] at hfa
        · simp [hkm] at hfa
          rw [← hfa.2]
          exact hkm
  · intro hall
    simp only [detect_agents]
    refine List.filterMap_eq_nil_iff.mpr ?_
    intro p hp
    obtain ⟨c, agents⟩ := p
    have hin : agentMatches (toLowerL prompt) agents = [] := by
      refine List.filterMap_eq_nil_iff.mpr ?_
      intro a hma
      obtain ⟨ag, kws⟩ := a
      have hkm : keywordMatches (toLowerL prompt) kws = [] := by
        refine List.filter_eq_nil_iff.mpr ?_
        intro kw hkw
        have hni := hall c agents ag kws kw hp hma hkw
        simpa [isInfixL] using hni
      simp [hkm]
    simp [hin]

theorem detect_agents_spec_witness :
    (TW.map Prod.fst).Nodup ∧
      (chars "performance") ∈
        matchesOf (detect_agents TW pW) "engineering" "performance-optimizer" := by
  refine ⟨by decide, ?_⟩
  have hnda : ∀ c agents, (c, agents) ∈ TW → (agents.map Prod.fst).Nodup := by
    intro c agents h
    simp only [TW, List.mem_singleton] at h
    injection h with h1 h2
    subst h2
    decide
  exact ((detect_agents_spec TW pW (by decide) hnda).1 "engineering"
    [("performance-optimizer", [chars "performance"])] "performance-optimizer"
    [chars "performance"] (chars "performance") (by decide) (by decide) (by decide)).mpr
    (by decide)
